import Mathlib

/-!
Shallow embedding of the regression engine of src/app1.py.

The computational core of the application (lines 56 to 80 and 133 to 138 of
src/app1.py) is embedded over the rationals: every quantity the Python code
manipulates is a double, and the embedding idealises double arithmetic as
exact field arithmetic.  A dataset is the ordered list of (x, y) pairs
obtained by pairing the numpy arrays x and y pointwise.
-/

/-- A dataset is an ordered sequence of (x, y) pairs, obtained by pairing
the numpy arrays x and y of src/app1.py lines 57 and 58 pointwise. -/
abbrev Dataset := List (ℚ × ℚ)

/-- Line evaluation, src/app1.py line 77: y_pred = slope * x + intercept,
computed elementwise over the array of x values. -/
def evaluate_line (xs : List ℚ) (slope intercept : ℚ) : List ℚ :=
  xs.map (fun x => slope * x + intercept)

/-- Total squared error, src/app1.py line 80:
total_error = np.sum((y - y_pred) ** 2), the elementwise squared difference
between actual and predicted y values, summed over the dataset. -/
def total_error (d : Dataset) (slope intercept : ℚ) : ℚ :=
  (d.map (fun p => (p.2 - (slope * p.1 + intercept)) ^ 2)).sum

/-- Sum of the x values of a dataset. -/
def sumX (d : Dataset) : ℚ := (d.map (fun p => p.1)).sum

/-- Sum of the y values of a dataset. -/
def sumY (d : Dataset) : ℚ := (d.map (fun p => p.2)).sum

/-- Sum of the squared x values of a dataset. -/
def sumXX (d : Dataset) : ℚ := (d.map (fun p => p.1 ^ 2)).sum

/-- Sum of the products x * y over a dataset. -/
def sumXY (d : Dataset) : ℚ := (d.map (fun p => p.1 * p.2)).sum

/-- Sum of the squared y values of a dataset. -/
def sumYY (d : Dataset) : ℚ := (d.map (fun p => p.2 ^ 2)).sum

/-- Number of points of a dataset, as a rational. -/
def nPts (d : Dataset) : ℚ := (d.length : ℚ)

/-- Denominator N * Sxx - Sx ^ 2 of the closed-form ordinary least squares
slope for a single predictor. -/
def olsDenom (d : Dataset) : ℚ := nPts d * sumXX d - sumX d ^ 2

/-- Numerator N * Sxy - Sx * Sy of the closed-form ordinary least squares
slope for a single predictor. -/
def olsNumer (d : Dataset) : ℚ := nPts d * sumXY d - sumX d * sumY d

/-- Slope component of np.polyfit(x, y, 1), src/app1.py line 78, through the
closed-form normal-equations solution
m = (N * Sxy - Sx * Sy) / (N * Sxx - Sx ^ 2). -/
def best_slope (d : Dataset) : ℚ := olsNumer d / olsDenom d

/-- Intercept component of np.polyfit(x, y, 1), src/app1.py line 78, through
the closed-form normal-equations solution b = (Sy - m * Sx) / N. -/
def best_intercept (d : Dataset) : ℚ := (sumY d - best_slope d * sumX d) / nPts d

/-- The pair (best_slope, best_intercept) bound at src/app1.py line 78. -/
def best_fit (d : Dataset) : ℚ × ℚ := (best_slope d, best_intercept d)

/-- Characterisation of what np.polyfit(x, y, 1) computes on the dataset: a
pair (m, b) is a least-squares fit when no line has a smaller total squared
error on the same dataset. -/
def IsLeastSquaresFit (d : Dataset) (m b : ℚ) : Prop :=
  ∀ m2 b2 : ℚ, total_error d m b ≤ total_error d m2 b2

/-- The three qualitative fit categories rendered as the success, warning
and error banners of src/app1.py lines 133 to 138. -/
inductive FitCategory where
  | excellent : FitCategory
  | acceptable : FitCategory
  | poor : FitCategory
deriving DecidableEq

/-- Fit classification, src/app1.py lines 133 to 138: the success banner
when total_error < 50, the warning banner when 50 <= total_error < 200, the
error banner otherwise. -/
def classify_fit (e : ℚ) : FitCategory :=
  if e < 50 then FitCategory.excellent
  else if e < 200 then FitCategory.acceptable
  else FitCategory.poor

/-- Model of the bounded numeric input widget of src/app1.py lines 64 to 70:
st.number_input with min_value lo and max_value hi keeps the returned value
inside [lo, hi], clamping an out-of-range request to the nearest bound and
returning an in-range request unchanged. -/
def number_input (value lo hi : ℚ) : ℚ := max lo (min value hi)

/-- Default slope at session start, src/app1.py lines 33 and 34. -/
def initialSlope : ℚ := 1

/-- Default intercept at session start, src/app1.py lines 35 and 36. -/
def initialIntercept : ℚ := 1

/-- Slope as it enters the computation, src/app1.py lines 64 to 66. -/
def slopeInput (v : ℚ) : ℚ := number_input v (-10) 10

/-- Intercept as it enters the computation, src/app1.py lines 68 to 70. -/
def interceptInput (v : ℚ) : ℚ := number_input v (-20) 20

/-- Value number i of np.linspace(lo, hi, n), src/app1.py line 57: n evenly
spaced values from lo to hi inclusive, in steps of (hi - lo) / (n - 1). -/
def linspaceVal (lo hi : ℚ) (n : ℕ) (i : ℕ) : ℚ :=
  lo + (hi - lo) * i / ((n : ℚ) - 1)

/-- np.linspace(lo, hi, n) as a list, src/app1.py line 57. -/
def linspace (lo hi : ℚ) (n : ℕ) : List ℚ :=
  (List.range n).map (linspaceVal lo hi n)

/-- Dataset generation, src/app1.py lines 56 to 58: after np.random.seed(42),
x = np.linspace(0, 10, 50) and y = 3 * x + 5 + np.random.normal(0, 2, 50).
The seeded Gaussian generator is modelled by the sequence noise of the draws
it produces; fixing the seed fixes that sequence, so the generated dataset is
a pure function of it. -/
def generate_dataset (noise : ℕ → ℚ) : Dataset :=
  (List.range 50).map (fun i =>
    (linspaceVal 0 10 50 i, 3 * linspaceVal 0 10 50 i + 5 + noise i))

/-- Everything the app computes from the dataset and the user parameters at
src/app1.py lines 77 to 80, as handed to the rendering layer. -/
structure RenderData where
  y_pred : List ℚ
  best_params : ℚ × ℚ
  y_best_fit : List ℚ
  err : ℚ
deriving DecidableEq

/-- The computation block of src/app1.py lines 77 to 80 as one function of
the dataset and the user supplied slope and intercept. -/
def computeOutputs (d : Dataset) (slope intercept : ℚ) : RenderData :=
  { y_pred := evaluate_line (d.map (fun p => p.1)) slope intercept,
    best_params := best_fit d,
    y_best_fit := evaluate_line (d.map (fun p => p.1)) (best_fit d).1 (best_fit d).2,
    err := total_error d slope intercept }

/-- Sum of squared deviations of the x values of a dataset from a common
value c, used to analyse the OLS denominator. -/
def resSq (d : Dataset) (c : ℚ) : ℚ := (d.map (fun p => (p.1 - c) ^ 2)).sum

/-! Algebraic helper lemmas about the regression sums. -/

theorem total_error_expand (d : Dataset) (m b : ℚ) :
    total_error d m b =
      sumYY d - 2 * m * sumXY d - 2 * b * sumY d
        + m ^ 2 * sumXX d + 2 * m * b * sumX d + b ^ 2 * nPts d := by
  induction d with
  | nil => simp [total_error, sumYY, sumXY, sumY, sumXX, sumX, nPts]
  | cons p t ih =>
      simp only [total_error, sumYY, sumXY, sumY, sumXX, sumX, nPts,
        List.map_cons, List.sum_cons, List.length_cons] at ih ⊢
      push_cast
      linear_combination ih

theorem resSq_expand (d : Dataset) (c : ℚ) :
    resSq d c = sumXX d - 2 * c * sumX d + c ^ 2 * nPts d := by
  induction d with
  | nil => simp [resSq, sumXX, sumX, nPts]
  | cons p t ih =>
      simp only [resSq, sumXX, sumX, nPts, List.map_cons, List.sum_cons,
        List.length_cons] at ih ⊢
      push_cast
      linear_combination ih

theorem resSq_nonneg (d : Dataset) (c : ℚ) : 0 ≤ resSq d c := by
  induction d with
  | nil => simp [resSq]
  | cons p t ih =>
      simp only [resSq, List.map_cons, List.sum_cons] at ih ⊢
      exact add_nonneg (sq_nonneg _) ih

theorem resSq_eq_zero_forall (d : Dataset) (c : ℚ) (h : resSq d c = 0) :
    ∀ p ∈ d, p.1 = c := by
  induction d with
  | nil => simp
  | cons p t ih =>
      simp only [resSq, List.map_cons, List.sum_cons] at h
      have ht : 0 ≤ resSq t c := resSq_nonneg t c
      have h2 : (p.1 - c) ^ 2 + resSq t c = 0 := h
      have hhead : (p.1 - c) ^ 2 = 0 := by
        nlinarith [sq_nonneg (p.1 - c)]
      have htail : resSq t c = 0 := by
        nlinarith [sq_nonneg (p.1 - c)]
      intro q hq
      rcases List.mem_cons.mp hq with hq | hq
      · subst hq
        have := sq_eq_zero_iff.mp hhead
        linarith [this]
      · exact ih htail q hq

theorem total_error_nonneg_aux (d : Dataset) (m b : ℚ) : 0 ≤ total_error d m b := by
  induction d with
  | nil => simp [total_error]
  | cons p t ih =>
      simp only [total_error, List.map_cons, List.sum_cons] at ih ⊢
      exact add_nonneg (sq_nonneg _) ih

theorem total_error_eq_zero_forall (d : Dataset) (m b : ℚ)
    (h : total_error d m b = 0) : ∀ p ∈ d, p.2 = m * p.1 + b := by
  induction d with
  | nil => simp
  | cons p t ih =>
      simp only [total_error, List.map_cons, List.sum_cons] at h
      have ht : 0 ≤ total_error t m b := total_error_nonneg_aux t m b
      have h2 : (p.2 - (m * p.1 + b)) ^ 2 + total_error t m b = 0 := h
      have hhead : (p.2 - (m * p.1 + b)) ^ 2 = 0 := by
        nlinarith [sq_nonneg (p.2 - (m * p.1 + b))]
      have htail : total_error t m b = 0 := by
        nlinarith [sq_nonneg (p.2 - (m * p.1 + b))]
      intro q hq
      rcases List.mem_cons.mp hq with hq | hq
      · subst hq
        have := sq_eq_zero_iff.mp hhead
        linarith [this]
      · exact ih htail q hq

theorem sums_of_const_x (d : Dataset) (c : ℚ) (h : ∀ p ∈ d, p.1 = c) :
    sumX d = c * nPts d ∧ sumXY d = c * sumY d := by
  induction d with
  | nil => simp [sumX, sumXY, sumY, nPts]
  | cons p t ih =>
      have hp : p.1 = c := h p (List.mem_cons_self p t)
      have ht : ∀ q ∈ t, q.1 = c := fun q hq => h q (List.mem_cons_of_mem p hq)
      obtain ⟨ih1, ih2⟩ := ih ht
      simp only [sumX, sumXY, sumY, nPts, List.map_cons, List.sum_cons,
        List.length_cons] at ih1 ih2 ⊢
      push_cast
      constructor
      · rw [hp]; linear_combination ih1
      · rw [hp]; linear_combination ih2

theorem nPts_nonneg (d : Dataset) : 0 ≤ nPts d := by
  simp [nPts]

theorem nPts_eq_zero_iff (d : Dataset) : nPts d = 0 ↔ d = [] := by
  simp [nPts, List.length_eq_zero]

theorem olsDenom_eq_mul_resSq (d : Dataset) (hN : nPts d ≠ 0) :
    olsDenom d = nPts d * resSq d (sumX d / nPts d) := by
  rw [resSq_expand, olsDenom]
  field_simp
  ring

theorem olsDenom_nonneg (d : Dataset) : 0 ≤ olsDenom d := by
  rcases eq_or_ne (nPts d) 0 with hN | hN
  · have hd : d = [] := (nPts_eq_zero_iff d).mp hN
    subst hd
    simp [olsDenom, nPts, sumX, sumXX]
  · rw [olsDenom_eq_mul_resSq d hN]
    exact mul_nonneg (nPts_nonneg d) (resSq_nonneg _ _)

theorem olsDenom_eq_zero_const_x (d : Dataset) (hN : nPts d ≠ 0)
    (hdn : olsDenom d = 0) : ∀ p ∈ d, p.1 = sumX d / nPts d := by
  have h := olsDenom_eq_mul_resSq d hN
  rw [hdn] at h
  have hres : resSq d (sumX d / nPts d) = 0 := by
    rcases mul_eq_zero.mp h.symm with h1 | h1
    · exact absurd h1 hN
    · exact h1
  exact resSq_eq_zero_forall d _ hres

theorem olsNumer_eq_zero_of_degenerate (d : Dataset) (hN : nPts d ≠ 0)
    (hdn : olsDenom d = 0) : olsNumer d = 0 := by
  obtain ⟨h1, h2⟩ := sums_of_const_x d _ (olsDenom_eq_zero_const_x d hN hdn)
  rw [olsNumer, h1, h2]
  ring

theorem olsDenom_pos_of_two_x (d : Dataset) (p q : ℚ × ℚ) (hp : p ∈ d)
    (hq : q ∈ d) (hne : p.1 ≠ q.1) : 0 < olsDenom d := by
  have hN : nPts d ≠ 0 := by
    rw [Ne, nPts_eq_zero_iff]
    rintro rfl
    exact (List.not_mem_nil p) hp
  rcases eq_or_lt_of_le (olsDenom_nonneg d) with h | h
  · exfalso
    have hall := olsDenom_eq_zero_const_x d hN h.symm
    exact hne ((hall p hp).trans (hall q hq).symm)
  · exact h

theorem key_identity (d : Dataset) (m b : ℚ) (hN : nPts d ≠ 0)
    (hdn : olsDenom d ≠ 0) :
    nPts d * (total_error d m b
        - total_error d (best_slope d) (best_intercept d)) =
      (nPts d * b + m * sumX d - sumY d) ^ 2
        + olsDenom d * (m - best_slope d) ^ 2 := by
  rw [total_error_expand, total_error_expand, best_intercept, best_slope,
    olsNumer, olsDenom]
  rw [olsDenom] at hdn
  field_simp
  ring

theorem key_identity_degenerate (d : Dataset) (m b : ℚ) (hN : nPts d ≠ 0)
    (hdn : olsDenom d = 0) :
    nPts d * (total_error d m b
        - total_error d (best_slope d) (best_intercept d)) =
      (nPts d * b + m * sumX d - sumY d) ^ 2 := by
  have hD : olsNumer d = 0 := olsNumer_eq_zero_of_degenerate d hN hdn
  have hm : best_slope d = 0 := by rw [best_slope, hD, zero_div]
  have hss : nPts d * sumXX d = sumX d ^ 2 := by
    have := hdn
    rw [olsDenom] at this
    linarith
  have hD2 : nPts d * sumXY d = sumX d * sumY d := by
    rw [olsNumer] at hD
    linarith
  rw [total_error_expand, total_error_expand, hm, best_intercept, hm]
  field_simp
  linear_combination (nPts d ^ 3 * m ^ 2) * hss - 2 * nPts d ^ 3 * m * hD2

theorem optimal_aux (d : Dataset) (m b : ℚ) :
    total_error d (best_slope d) (best_intercept d) ≤ total_error d m b := by
  rcases eq_or_ne (nPts d) 0 with hN | hN
  · have hd : d = [] := (nPts_eq_zero_iff d).mp hN
    subst hd
    simp [total_error]
  · have hNpos : 0 < nPts d := lt_of_le_of_ne (nPts_nonneg d) (Ne.symm hN)
    rcases eq_or_ne (olsDenom d) 0 with hdn | hdn
    · have key := key_identity_degenerate d m b hN hdn
      nlinarith [sq_nonneg (nPts d * b + m * sumX d - sumY d)]
    · have key := key_identity d m b hN hdn
      have hdpos : 0 < olsDenom d :=
        lt_of_le_of_ne (olsDenom_nonneg d) (Ne.symm hdn)
      nlinarith [sq_nonneg (nPts d * b + m * sumX d - sumY d),
        mul_nonneg (le_of_lt hdpos) (sq_nonneg (m - best_slope d))]

theorem ls_fit_unique (d : Dataset) (p q : ℚ × ℚ) (hp : p ∈ d) (hq : q ∈ d)
    (hne : p.1 ≠ q.1) (m b : ℚ) (hopt : IsLeastSquaresFit d m b) :
    m = best_slope d ∧ b = best_intercept d := by
  have hdpos : 0 < olsDenom d := olsDenom_pos_of_two_x d p q hp hq hne
  have hN : nPts d ≠ 0 := by
    rw [Ne, nPts_eq_zero_iff]
    rintro rfl
    exact (List.not_mem_nil p) hp
  have hNpos : 0 < nPts d := lt_of_le_of_ne (nPts_nonneg d) (Ne.symm hN)
  have h1 : total_error d m b ≤ total_error d (best_slope d) (best_intercept d) :=
    hopt (best_slope d) (best_intercept d)
  have h2 := optimal_aux d m b
  have heq : total_error d m b = total_error d (best_slope d) (best_intercept d) :=
    le_antisymm h1 h2
  have key := key_identity d m b hN (ne_of_gt hdpos)
  rw [heq, sub_self, mul_zero] at key
  have hsq : (m - best_slope d) ^ 2 = 0 := by
    nlinarith [sq_nonneg (nPts d * b + m * sumX d - sumY d),
      sq_nonneg (m - best_slope d)]
  have hm : m = best_slope d := by
    have := sq_eq_zero_iff.mp hsq
    linarith
  have hterm : nPts d * b + m * sumX d - sumY d = 0 := by
    have hsq2 : (nPts d * b + m * sumX d - sumY d) ^ 2 = 0 := by
      nlinarith [sq_nonneg (nPts d * b + m * sumX d - sumY d),
        mul_nonneg (le_of_lt hdpos) (sq_nonneg (m - best_slope d))]
    have := sq_eq_zero_iff.mp hsq2
    linarith
  refine ⟨hm, ?_⟩
  rw [best_intercept, ← hm]
  field_simp
  linarith [hterm]

theorem total_error_fin (d : Dataset) (m b : ℚ) :
    total_error d m b
      = ∑ i : Fin d.length, ((d.get i).2 - (m * (d.get i).1 + b)) ^ 2 := by
  induction d with
  | nil => simp [total_error]
  | cons p t ih =>
      simp only [total_error, List.map_cons, List.sum_cons,
        List.length_cons] at ih ⊢
      rw [Fin.sum_univ_succ]
      simp [ih]

/-! Claim theorems. -/

/-- Claim C1: for every dataset and every line L = (slope, intercept), the
total squared error of the best-fit line computed from that dataset is less
than or equal to the total squared error of L on the same dataset, the
least-squares optimality of the fitted line of src/app1.py line 78. -/
theorem claim_C1_best_fit_optimal (d : Dataset) (L : ℚ × ℚ) :
    total_error d (best_fit d).1 (best_fit d).2 ≤ total_error d L.1 L.2 := by
  simpa [best_fit] using optimal_aux d L.1 L.2

/-- Claim C2: the total squared error of src/app1.py line 80 is exactly the
sum over all data points of (y_i - (slope * x_i + intercept)) ^ 2, it is
never negative, and it is zero only if the line passes exactly through every
point of the dataset. -/
theorem claim_C2_total_error_spec (d : Dataset) (m b : ℚ) :
    total_error d m b
        = ∑ i : Fin d.length, ((d.get i).2 - (m * (d.get i).1 + b)) ^ 2
      ∧ 0 ≤ total_error d m b
      ∧ (total_error d m b = 0 → ∀ p ∈ d, p.2 = m * p.1 + b) :=
  ⟨total_error_fin d m b, total_error_nonneg_aux d m b,
    total_error_eq_zero_forall d m b⟩

theorem claim_C2_witness :
    0 ≤ total_error [((0 : ℚ), 1), (1, 3)] 2 1
      ∧ (1 : ℚ) = 2 * 0 + 1 :=
  ⟨(claim_C2_total_error_spec [((0 : ℚ), 1), (1, 3)] 2 1).2.1,
   (claim_C2_total_error_spec [((0 : ℚ), 1), (1, 3)] 2 1).2.2
     (by norm_num [total_error]) (0, 1) (by simp)⟩

/-- Claim C3: the fit classification of src/app1.py lines 133 to 138 uses
half-open bounds with thresholds 50 and 200: Excellent when
total_error < 50, Acceptable when 50 <= total_error < 200, Poor when
total_error >= 200; in particular 49.9 maps to Excellent, 50.0 and 199.9 map
to Acceptable, and 200.0 maps to Poor. -/
theorem claim_C3_classify_fit (e : ℚ) :
    (e < 50 → classify_fit e = FitCategory.excellent)
      ∧ (50 ≤ e → e < 200 → classify_fit e = FitCategory.acceptable)
      ∧ (200 ≤ e → classify_fit e = FitCategory.poor)
      ∧ classify_fit (49.9 : ℚ) = FitCategory.excellent
      ∧ classify_fit (50 : ℚ) = FitCategory.acceptable
      ∧ classify_fit (199.9 : ℚ) = FitCategory.acceptable
      ∧ classify_fit (200 : ℚ) = FitCategory.poor := by
  refine ⟨?_, ?_, ?_, ?_, ?_, ?_, ?_⟩
  · intro h
    rw [classify_fit, if_pos h]
  · intro h1 h2
    rw [classify_fit, if_neg (by linarith), if_pos h2]
  · intro h
    rw [classify_fit, if_neg (by linarith), if_neg (by linarith)]
  · norm_num [classify_fit]
  · norm_num [classify_fit]
  · norm_num [classify_fit]
  · norm_num [classify_fit]

theorem claim_C3_witness :
    classify_fit 0 = FitCategory.excellent :=
  (claim_C3_classify_fit 0).1 (by norm_num)

/-- Claim C4: on every dataset whose x values are not all identical, the
least-squares fit computed by np.polyfit(x, y, 1) at src/app1.py line 78 is
exactly the closed-form normal-equations solution
m = (N * Sxy - Sx * Sy) / (N * Sxx - Sx ^ 2), b = (Sy - m * Sx) / N: a pair
minimises the total squared error if and only if it equals that solution. -/
theorem claim_C4_polyfit_closed_form (d : Dataset)
    (hx : ∃ p ∈ d, ∃ q ∈ d, p.1 ≠ q.1) (m b : ℚ) :
    IsLeastSquaresFit d m b ↔ m = best_slope d ∧ b = best_intercept d := by
  obtain ⟨p, hp, q, hq, hne⟩ := hx
  constructor
  · exact ls_fit_unique d p q hp hq hne m b
  · rintro ⟨rfl, rfl⟩
    intro m2 b2
    exact optimal_aux d m2 b2

theorem claim_C4_witness :
    IsLeastSquaresFit [((0 : ℚ), 0), (1, 1)] 1 0 :=
  (claim_C4_polyfit_closed_form [((0 : ℚ), 0), (1, 1)]
      ⟨(0, 0), by simp, (1, 1), by simp, by norm_num⟩ 1 0).mpr
    (by
      constructor <;>
        norm_num [best_slope, best_intercept, olsNumer, olsDenom,
          sumX, sumY, sumXX, sumXY, nPts])

/-- Claim C5: line evaluation at src/app1.py line 77 returns a sequence of
the same length as the input x values, in the same order, whose element
number i equals slope * x_i + intercept. -/
theorem claim_C5_evaluate_line (xs : List ℚ) (m b : ℚ) :
    (evaluate_line xs m b).length = xs.length
      ∧ ∀ i : ℕ, (evaluate_line xs m b)[i]?
          = (xs[i]?).map (fun x => m * x + b) := by
  constructor
  · simp [evaluate_line]
  · intro i
    simp [evaluate_line, List.getElem?_map]

/-- Claim C6: the best-fit line of src/app1.py line 78 is a pure,
deterministic function of the dataset alone: the best_params component of
the computation block is identical for any two user supplied slopes and
intercepts, and equals best_fit of the dataset. -/
theorem claim_C6_best_fit_independent (d : Dataset) (s1 i1 s2 i2 : ℚ) :
    (computeOutputs d s1 i1).best_params = (computeOutputs d s2 i2).best_params
      ∧ (computeOutputs d s1 i1).best_params = best_fit d :=
  ⟨rfl, rfl⟩

/-- Claim C7, counterexample: on a dataset whose x values are all identical,
the best-fit computation does not signal a typed failure: it returns the
plain numeric pair (0, 3) on [(1, 2), (1, 4)]. -/
theorem claim_C7_counterexample :
    best_fit [((1 : ℚ), 2), (1, 4)] = (0, 3) := by
  norm_num [best_fit, best_slope, best_intercept, olsNumer, olsDenom,
    sumX, sumY, sumXX, sumXY, nPts]

/-- Claim C7 as amended: when all x values of a dataset are
identical, the best-fit computation of src/app1.py line 78 does not fail and
returns the numeric pair (0, sumY d / nPts d); the returned pair still
minimises the total squared error, so no misleading value is produced, but
no explicit degenerate-case signal exists. -/
theorem claim_C7_degenerate_numeric (d : Dataset) (c : ℚ)
    (hall : ∀ p ∈ d, p.1 = c) :
    best_fit d = (0, sumY d / nPts d)
      ∧ IsLeastSquaresFit d 0 (sumY d / nPts d) := by
  have hD : olsNumer d = 0 := by
    obtain ⟨h1, h2⟩ := sums_of_const_x d c hall
    rw [olsNumer, h1, h2]
    ring
  have hm : best_slope d = 0 := by rw [best_slope, hD, zero_div]
  have hb : best_intercept d = sumY d / nPts d := by
    rw [best_intercept, hm]
    ring_nf
  refine ⟨?_, ?_⟩
  · rw [best_fit, hm, hb]
  · intro m2 b2
    have h := optimal_aux d m2 b2
    rwa [hm, hb] at h

theorem claim_C7_witness :
    best_fit [((1 : ℚ), 2), (1, 4)]
        = (0, sumY [((1 : ℚ), 2), (1, 4)] / nPts [((1 : ℚ), 2), (1, 4)])
      ∧ IsLeastSquaresFit [((1 : ℚ), 2), (1, 4)]
          0 (sumY [((1 : ℚ), 2), (1, 4)] / nPts [((1 : ℚ), 2), (1, 4)]) :=
  claim_C7_degenerate_numeric [((1 : ℚ), 2), (1, 4)] 1 (by simp)

/-- Claim C8: the slope and intercept that enter the computation are always
within the documented bounds, slope in [-10, 10] and intercept in [-20, 20];
an out-of-range request is clamped by the bounded input widget, an in-range
request is passed through unchanged, and both parameters default to 1.0 at
session start. -/
theorem claim_C8_inputs_bounded :
    (∀ v : ℚ, -10 ≤ slopeInput v ∧ slopeInput v ≤ 10)
      ∧ (∀ v : ℚ, -20 ≤ interceptInput v ∧ interceptInput v ≤ 20)
      ∧ (∀ v : ℚ, -10 ≤ v → v ≤ 10 → slopeInput v = v)
      ∧ (∀ v : ℚ, -20 ≤ v → v ≤ 20 → interceptInput v = v)
      ∧ initialSlope = 1 ∧ initialIntercept = 1 := by
  refine ⟨?_, ?_, ?_, ?_, rfl, rfl⟩
  · intro v
    exact ⟨le_max_left _ _, max_le (by norm_num) (min_le_right _ _)⟩
  · intro v
    exact ⟨le_max_left _ _, max_le (by norm_num) (min_le_right _ _)⟩
  · intro v h1 h2
    rw [slopeInput, number_input, min_eq_left h2, max_eq_right h1]
  · intro v h1 h2
    rw [interceptInput, number_input, min_eq_left h2, max_eq_right h1]

theorem claim_C8_witness :
    slopeInput 3 = 3 ∧ -10 ≤ slopeInput 25 ∧ slopeInput 25 ≤ 10 :=
  ⟨claim_C8_inputs_bounded.2.2.1 3 (by norm_num) (by norm_num),
   (claim_C8_inputs_bounded.1 25).1, (claim_C8_inputs_bounded.1 25).2⟩

/-- Claim C9: the generated dataset of src/app1.py lines 56 to 58 is an
ordered sequence of exactly 50 pairs whose x values are np.linspace(0, 10, 50),
evenly spaced with first element 0, last element 10 and constant spacing
10 / 49, with y = 3 * x + 5 plus the noise drawn from the seeded Gaussian
generator; the dataset is a pure function of the noise sequence, which the
fixed seed fixes, so the same dataset is produced on every run. -/
theorem claim_C9_generate_dataset :
    (∀ noise : ℕ → ℚ, (generate_dataset noise).length = 50)
      ∧ (∀ noise : ℕ → ℚ,
          (generate_dataset noise).map (fun p => p.1) = linspace 0 10 50)
      ∧ (∀ (noise : ℕ → ℚ) (i : ℕ), i < 50 →
          (generate_dataset noise)[i]?
            = some (linspaceVal 0 10 50 i,
                3 * linspaceVal 0 10 50 i + 5 + noise i))
      ∧ linspaceVal 0 10 50 0 = 0
      ∧ linspaceVal 0 10 50 49 = 10
      ∧ (∀ i : ℕ,
          linspaceVal 0 10 50 (i + 1) - linspaceVal 0 10 50 i = 10 / 49)
      ∧ (∀ noise1 noise2 : ℕ → ℚ, (∀ i, i < 50 → noise1 i = noise2 i) →
          generate_dataset noise1 = generate_dataset noise2) := by
  refine ⟨?_, ?_, ?_, ?_, ?_, ?_, ?_⟩
  · intro noise
    simp [generate_dataset]
  · intro noise
    simp [generate_dataset, linspace, List.map_map]
  · intro noise i hi
    simp [generate_dataset, List.getElem?_map, List.getElem?_range, hi]
  · norm_num [linspaceVal]
  · norm_num [linspaceVal]
  · intro i
    rw [linspaceVal, linspaceVal]
    push_cast
    field_simp
    ring
  · intro n1 n2 h
    simp only [generate_dataset]
    apply List.map_congr_left
    intro i hi
    rw [h i (List.mem_range.mp hi)]

theorem claim_C9_witness :
    generate_dataset (fun _ => 0)
      = generate_dataset (fun i => if i < 50 then 0 else 1) :=
  claim_C9_generate_dataset.2.2.2.2.2.2 (fun _ => 0)
    (fun i => if i < 50 then 0 else 1) (fun i hi => by simp [hi])

/-- Claim C10: for the dataset this program actually generates, the x values
are not all identical, so the OLS denominator N * Sxx - Sx ^ 2 is strictly
positive and in particular nonzero: the degenerate zero-variance case of the
best-fit computation is unreachable. -/
theorem claim_C10_nondegenerate (noise : ℕ → ℚ) :
    (∃ p ∈ generate_dataset noise, ∃ q ∈ generate_dataset noise, p.1 ≠ q.1)
      ∧ 0 < olsDenom (generate_dataset noise)
      ∧ olsDenom (generate_dataset noise) ≠ 0 := by
  have h0 : (linspaceVal 0 10 50 0, 3 * linspaceVal 0 10 50 0 + 5 + noise 0)
      ∈ generate_dataset noise := by
    apply List.mem_map_of_mem
    simp
  have h1 : (linspaceVal 0 10 50 1, 3 * linspaceVal 0 10 50 1 + 5 + noise 1)
      ∈ generate_dataset noise := by
    apply List.mem_map_of_mem
    simp
  have hne : (linspaceVal 0 10 50 0 : ℚ) ≠ linspaceVal 0 10 50 1 := by
    norm_num [linspaceVal]
  have hpos := olsDenom_pos_of_two_x (generate_dataset noise) _ _ h0 h1 hne
  exact ⟨⟨_, h0, _, h1, hne⟩, hpos, ne_of_gt hpos⟩
